import Mathlib

/-!
Verification of the signal-generation pipeline in `src/script.js`:
the TTL cache, the resilient fetcher `fetchAPI`, the indicator engine
(`calculateRSI`, `calculateEMA`, `calculateMACD`, `calculateBollinger`)
and the local decision rule `localSignal`.

Numbers are modelled as exact rationals (reals for the Bollinger bands,
whose standard deviation needs a square root); machine floats are not
modelled.  Local storage is modelled as two partial maps (payload and
metadata), mirroring the two `localStorage` keys `cache_k` and
`cache_k_meta` the source uses.  The network and the wall clock are
modelled as explicit inputs to `fetchAPI`; toast notifications are
collected as an explicit output list.
-/

namespace Script

/-- `CONFIG.CACHE_TTL` from script.js line 5: 60 000 ms. -/
def CACHE_TTL : ℕ := 60000

/-- The cache's backing store: the source keeps, for a key `k`, the payload
under `localStorage` key `cache_k` and the write timestamp under
`cache_k_meta`.  We model the two stores as two partial maps. -/
structure CacheState (α : Type) where
  data : String → Option α
  meta : String → Option ℕ

/-- A store with no entries. -/
def emptyCache (α : Type) : CacheState α := ⟨fun _ => none, fun _ => none⟩

/-- `cache.get` (script.js lines 22-27): returns `none` when either the
payload or the metadata is missing, and `none` when `now - t > CACHE_TTL`;
otherwise the stored payload.  JS `Date.now() - t` on a timestamp in the
future is negative, hence not `> TTL`; truncated `Nat` subtraction gives
`0`, likewise not `> TTL`, so the model agrees. -/
def cacheGet (σ : CacheState α) (k : String) (now : ℕ) : Option α :=
  match σ.data k, σ.meta k with
  | some d, some t => if now - t > CACHE_TTL then none else some d
  | _, _ => none

/-- `cache.set` (script.js lines 28-31): overwrites both the payload and
the metadata timestamp for `k`. -/
def cacheSet (σ : CacheState α) (k : String) (v : α) (now : ℕ) : CacheState α :=
  ⟨fun q => if q = k then some v else σ.data q,
   fun q => if q = k then some now else σ.meta q⟩

/-- The environment a single `fetchAPI` call runs in: `navigator.onLine`,
the outcome of the (timed-out, parsed) network attempt — `some d` for a
2xx response whose body parsed to `d`, `none` for non-2xx status, timeout
or parse error — and the current wall clock `Date.now()`. -/
structure FetchEnv (α : Type) where
  online : Bool
  netResult : Option α
  now : ℕ

/-- The two failure modes `fetchAPI` can propagate: the `Error('Offline')`
thrown on line 39, and the rethrown network/parsing error of line 51. -/
inductive FetchError where
  | offline
  | netFailure
  deriving DecidableEq

/-- What one `fetchAPI` call produces: the value returned or error thrown,
the toast messages emitted along the way, and the cache store afterwards. -/
structure FetchResult (α : Type) where
  result : Except FetchError α
  toasts : List String
  cache : CacheState α

/-- `fetchAPI` (script.js lines 35-53).  Offline: serve `cache.get` if it
yields a value (toasting `Using offline data`), else throw `Offline`.
Online: on network success store the payload and return it; on failure
serve `cache.get` if it yields a value (toasting `Using cached data`),
else rethrow. -/
def fetchAPI (env : FetchEnv α) (nm : String) (σ : CacheState α) :
    FetchResult α :=
  if !env.online then
    match cacheGet σ nm env.now with
    | some c => ⟨Except.ok c, ["Using offline data"], σ⟩
    | none => ⟨Except.error FetchError.offline, [], σ⟩
  else
    match env.netResult with
    | some d => ⟨Except.ok d, [], cacheSet σ nm d env.now⟩
    | none =>
      match cacheGet σ nm env.now with
      | some c => ⟨Except.ok c, ["Using cached data"], σ⟩
      | none => ⟨Except.error FetchError.netFailure, [], σ⟩

/-- The consecutive price changes: element `i` is `prices[i+1] - prices[i]`,
the `change` the RSI loop (script.js line 179) computes at index `i+1`. -/
def deltas (prices : List ℚ) : List ℚ :=
  List.zipWith (fun a b => b - a) prices prices.tail

/-- The last `n` elements of a list (`slice(-n)` for a list of length ≥ n). -/
def lastN (n : ℕ) (l : List α) : List α := l.drop (l.length - n)

/-- `calculateRSI` (script.js lines 175-187).  Fewer than `period + 1`
points: neutral `50`.  Otherwise the loop over the last `period`
transitions adds `change` to `gains` when `change > 0` and `-change` to
`losses` otherwise; `avgLoss = 0` yields `100`, else
`100 - 100/(1 + avgGain/avgLoss)`. -/
def calculateRSI (prices : List ℚ) (period : ℕ := 14) : ℚ :=
  if prices.length < period + 1 then 50
  else
    let ds := lastN period (deltas prices)
    let gains := (ds.map fun c => if c > 0 then c else 0).sum
    let losses := (ds.map fun c => if c > 0 then 0 else -c).sum
    let avgGain := gains / period
    let avgLoss := losses / period
    if avgLoss = 0 then 100
    else 100 - 100 / (1 + avgGain / avgLoss)

/-- One step of the EMA recurrence `ema = (price - ema) * multiplier + ema`
(script.js line 194), with `multiplier = 2 / (period + 1)`. -/
def emaStep (period : ℕ) (ema price : ℚ) : ℚ :=
  (price - ema) * (2 / (period + 1 : ℚ)) + ema

/-- `calculateEMA` (script.js lines 189-197): series shorter than `period`
returns the last element; otherwise seed with the first element and fold
the recurrence over the remaining elements in order. -/
def calculateEMA (prices : List ℚ) (period : ℕ) : ℚ :=
  if prices.length < period then prices.getLastI
  else prices.tail.foldl (emaStep period) prices.headI

/-- The record `calculateMACD` returns (script.js line 204). -/
structure MACDResult where
  histogram : ℚ
  deriving DecidableEq

/-- `calculateMACD` (script.js lines 199-205): `macd = EMA(series,12) -
EMA(series,26)`, `signal = EMA([macd], 9)`, `histogram = macd - signal`. -/
def calculateMACD (prices : List ℚ) : MACDResult :=
  let ema12 := calculateEMA prices 12
  let ema26 := calculateEMA prices 26
  let macd := ema12 - ema26
  let signal := calculateEMA [macd] 9
  ⟨macd - signal⟩

/-- The Bollinger-band triple (script.js line 212).  Real-valued because
the standard deviation takes a square root. -/
structure Bands where
  upper : ℝ
  middle : ℝ
  lower : ℝ

/-- `calculateBollinger` (script.js lines 207-213): fewer than `period`
points returns three copies of `prices[0]`; otherwise the simple mean and
population variance of the last `period` points give
`mean ± 2 * sqrt variance`. -/
noncomputable def calculateBollinger (prices : List ℝ) (period : ℕ := 20) :
    Bands :=
  if prices.length < period then ⟨prices.headI, prices.headI, prices.headI⟩
  else
    let window := prices.drop (prices.length - period)
    let sma := window.sum / (period : ℝ)
    let variance := (window.map fun p => (p - sma) ^ 2).sum / (period : ℝ)
    let std := Real.sqrt variance
    ⟨sma + 2 * std, sma, sma - 2 * std⟩

/-- The trade decision enumeration used in a `Signal`. -/
inductive Decision where
  | Buy
  | Sell
  | Hold
  deriving DecidableEq

/-- The fields of a coin record that `localSignal` reads. -/
structure Coin where
  current_price : ℚ

/-- The fields of the indicator record that `localSignal` reads. -/
structure Indicators where
  rsi : ℚ

/-- The signal record `localSignal` builds (script.js lines 156-163).  The
presentation-only `explanation` string (the RSI formatted to one decimal)
is not modelled. -/
structure Signal where
  decision : Decision
  confidence : ℚ
  entry_price : ℚ
  stoploss : ℚ
  take_profit : ℚ

/-- `localSignal` (script.js lines 148-164): `Buy/75` when `rsi < 30`,
`Sell/75` when `rsi > 70`, else `Hold/50`; entry at the current price,
stop-loss at `price * 0.99`, take-profit at `price * 1.02` for Buy and
`price * 0.98` otherwise. -/
def localSignal (coin : Coin) (ind : Indicators) : Signal :=
  let rsi := ind.rsi
  let price := coin.current_price
  let decision := if rsi < 30 then Decision.Buy
    else if rsi > 70 then Decision.Sell else Decision.Hold
  let confidence : ℚ := if rsi < 30 then 75 else if rsi > 70 then 75 else 50
  { decision := decision
    confidence := confidence
    entry_price := price
    stoploss := price * 0.99
    take_profit := price * (if decision = Decision.Buy then 1.02 else 0.98) }

/-- The alert condition in `generateSignal` (script.js line 115):
`if (signal.confidence > 80) playAlert()`. -/
def alertTriggered (s : Signal) : Bool := s.confidence > 80

/-- Reference RSI written from the spec's words (§4.3): fewer than
`period + 1` points gives the neutral 50; otherwise `gains` is the sum of
the positive deltas and `losses` the sum of the absolute values of the
negative deltas over exactly the last 14 transitions, `avgLoss = 0` gives
100, else `100 - 100/(1 + avgGain/avgLoss)`. -/
def specRSI (prices : List ℚ) : ℚ :=
  if prices.length < 15 then 50
  else
    let ds := lastN 14 (deltas prices)
    let gains := ((ds.filter fun c => 0 < c)).sum
    let losses := ((ds.filter fun c => c < 0).map (fun c => |c|)).sum
    let avgGain := gains / 14
    let avgLoss := losses / 14
    if avgLoss = 0 then 100
    else 100 - 100 / (1 + avgGain / avgLoss)

/-- The RSI loop's running `gains` equals the sum of the positive deltas. -/
lemma sum_if_pos_eq_sum_filter (ds : List ℚ) :
    (ds.map fun c => if c > 0 then c else 0).sum
      = ((ds.filter fun c => 0 < c)).sum := by
  induction ds with
  | nil => simp
  | cons c t ih =>
    by_cases h : 0 < c <;> simp [List.filter_cons, h, ih]

/-- The RSI loop's running `losses` equals the sum of the absolute values
of the negative deltas. -/
lemma sum_if_neg_eq_sum_filter (ds : List ℚ) :
    (ds.map fun c => if c > 0 then 0 else -c).sum
      = ((ds.filter fun c => c < 0).map (fun c => |c|)).sum := by
  induction ds with
  | nil => simp
  | cons c t ih =>
    rcases lt_trichotomy c 0 with h | h | h
    · have h' : ¬ c > 0 := by linarith
      simp [List.filter_cons, h, h', ih, abs_of_neg h]
    · subst h
      simp [List.filter_cons, ih]
    · have h' : ¬ c < 0 := by linarith
      simp [List.filter_cons, h, h', ih]

/-- The summands of the RSI `losses` accumulator are non-negative. -/
lemma losses_nonneg (ds : List ℚ) :
    0 ≤ (ds.map fun c => if c > 0 then 0 else -c).sum := by
  apply List.sum_nonneg
  intro x hx
  obtain ⟨c, _, rfl⟩ := List.mem_map.mp hx
  rcases lt_or_le 0 c with h | h
  · rw [if_pos h]
  · rw [if_neg (not_lt.mpr h)]; linarith

/-- The summands of the RSI `gains` accumulator are non-negative. -/
lemma gains_nonneg (ds : List ℚ) :
    0 ≤ (ds.map fun c => if c > 0 then c else 0).sum := by
  apply List.sum_nonneg
  intro x hx
  obtain ⟨c, _, rfl⟩ := List.mem_map.mp hx
  rcases lt_or_le 0 c with h | h
  · rw [if_pos h]; linarith
  · rw [if_neg (not_lt.mpr h)]

/-- Feeding the current EMA value itself through one EMA step is a no-op,
so folding from the first element over the whole series equals folding the
seed over the tail. -/
lemma emaStep_self (period : ℕ) (a : ℚ) : emaStep period a a = a := by
  unfold emaStep; ring

/-- C9: for every price series `calculateMACD` returns histogram 0: the
signal line is the EMA of the single-element list `[macd]`, which by the
EMA short-series rule is `macd` itself, so `histogram = macd - signal` is
identically zero. -/
theorem macd_histogram_zero (prices : List ℚ) :
    (calculateMACD prices).histogram = 0 := by
  simp [calculateMACD, calculateEMA, List.getLastI]

/-- C10: `localSignal` only ever produces confidence 50 or 75, so a
locally computed signal never satisfies the `confidence > 80` alert
condition of `generateSignal`; only a remote advisory can raise an
alert. -/
theorem localSignal_never_alerts (coin : Coin) (ind : Indicators) :
    ((localSignal coin ind).confidence = 50 ∨
      (localSignal coin ind).confidence = 75) ∧
    alertTriggered (localSignal coin ind) = false := by
  unfold localSignal alertTriggered
  rcases lt_or_le ind.rsi 30 with h | h
  · simp [h]; norm_num
  · rcases le_or_lt ind.rsi 70 with h' | h'
    · simp [not_lt.mpr h, not_lt.mpr h']; norm_num
    · simp [not_lt.mpr h, h']; norm_num

/-- C3: with no advisory available, the locally computed signal has
decision Buy below RSI 30, Sell above 70 and Hold otherwise; confidence
75 exactly when a Buy/Sell threshold fired and 50 otherwise; entry at the
current price, stop-loss at 0.99 times it, and take-profit at 1.02 times
it for Buy and 0.98 times it otherwise. -/
theorem localSignal_spec (coin : Coin) (ind : Indicators) :
    (ind.rsi < 30 → (localSignal coin ind).decision = Decision.Buy) ∧
    (ind.rsi > 70 → (localSignal coin ind).decision = Decision.Sell) ∧
    (¬ ind.rsi < 30 → ¬ ind.rsi > 70 →
      (localSignal coin ind).decision = Decision.Hold) ∧
    (ind.rsi < 30 ∨ ind.rsi > 70 → (localSignal coin ind).confidence = 75) ∧
    (¬ ind.rsi < 30 → ¬ ind.rsi > 70 →
      (localSignal coin ind).confidence = 50) ∧
    (localSignal coin ind).entry_price = coin.current_price ∧
    (localSignal coin ind).stoploss = 0.99 * coin.current_price ∧
    ((localSignal coin ind).decision = Decision.Buy →
      (localSignal coin ind).take_profit = 1.02 * coin.current_price) ∧
    ((localSignal coin ind).decision ≠ Decision.Buy →
      (localSignal coin ind).take_profit = 0.98 * coin.current_price) := by
  unfold localSignal
  rcases lt_or_le ind.rsi 30 with h | h
  · have h' : ¬ ind.rsi > 70 := by simp; linarith
    refine ⟨fun _ => by simp [h], fun hc => absurd hc h', by tauto,
      fun _ => by simp [h], by tauto, by simp, by simp; ring, ?_, ?_⟩
    · intro _; simp [h]; ring
    · intro hc; exact absurd (by simp [h]) hc
  · rcases le_or_lt ind.rsi 70 with h2 | h2
    · have hn : ¬ ind.rsi < 30 := not_lt.mpr h
      have hn2 : ¬ ind.rsi > 70 := not_lt.mpr h2
      refine ⟨fun hc => absurd hc hn, fun hc => absurd hc hn2,
        fun _ _ => by simp [hn, hn2], fun hc => by tauto,
        fun _ _ => by simp [hn, hn2], by simp, by simp; ring, ?_, ?_⟩
      · intro hc; simp [hn, hn2] at hc
      · intro _; simp [hn, hn2]; ring
    · have hn : ¬ ind.rsi < 30 := not_lt.mpr h
      refine ⟨fun hc => absurd hc hn, fun _ => by simp [hn, h2],
        fun _ hc => absurd h2 hc, fun _ => by simp [hn, h2],
        fun _ hc => absurd h2 hc, by simp, by simp; ring, ?_, ?_⟩
      · intro hc; simp [hn, h2] at hc
      · intro _; simp [hn, h2]; ring

/-- Witness for C3: at RSI 25 and price 100 the local signal is a Buy at
confidence 75, entry 100, stop-loss 99, take-profit 102. -/
theorem localSignal_spec_witness :
    (localSignal ⟨100⟩ ⟨25⟩).decision = Decision.Buy ∧
    (localSignal ⟨100⟩ ⟨25⟩).confidence = 75 ∧
    (localSignal ⟨100⟩ ⟨25⟩).entry_price = 100 ∧
    (localSignal ⟨100⟩ ⟨25⟩).stoploss = 0.99 * 100 ∧
    (localSignal ⟨100⟩ ⟨25⟩).take_profit = 1.02 * 100 := by
  obtain ⟨h1, _, _, h4, _, h6, h7, h8, _⟩ := localSignal_spec ⟨100⟩ ⟨25⟩
  exact ⟨h1 (by norm_num), h4 (Or.inl (by norm_num)), h6, h7,
    h8 (h1 (by norm_num))⟩

/-- C7: `calculateEMA` returns the last element of a non-empty series
shorter than the period, and otherwise the fold of the EMA recurrence
seeded with the first element over the whole series in order. -/
theorem ema_spec (prices : List ℚ) (period : ℕ) :
    ((hne : prices ≠ []) → prices.length < period →
      calculateEMA prices period = prices.getLast hne) ∧
    (period ≤ prices.length →
      calculateEMA prices period
        = prices.foldl (emaStep period) prices.headI) := by
  constructor
  · intro hne hlt
    rw [calculateEMA, if_pos hlt, List.getLastI_eq_getLast?,
      List.getLast?_eq_getLast _ hne]
  · intro hle
    rw [calculateEMA, if_neg (not_lt.mpr hle)]
    cases prices with
    | nil => simp
    | cons a t => simp [List.foldl_cons, emaStep_self]

/-- Witness for C7: a 3-point series under period 12 yields its last
element 3; a 4-point series under period 3 folds the recurrence to
25/8. -/
theorem ema_spec_witness :
    calculateEMA [1, 2, 3] 12 = 3 ∧ calculateEMA [1, 2, 3, 4] 3 = 25 / 8 := by
  constructor
  · have h := (ema_spec [1, 2, 3] 12).1 (by decide) (by decide)
    simpa using h
  · have h := (ema_spec [1, 2, 3, 4] 3).2 (by decide)
    rw [h]; norm_num [List.foldl, emaStep, List.headI]

/-- C4: `cache.get` right after `cache.set k v` returns exactly `v` while
the elapsed time is within the 60 000 ms TTL, returns absent once the age
exceeds the TTL, and returns the same absent answer when no entry was
ever stored for the key — missing and expired are indistinguishable to
the caller. -/
theorem cache_roundtrip_ttl {α : Type} (σ : CacheState α) (k : String)
    (v : α) (t now : ℕ) :
    (now - t ≤ CACHE_TTL → cacheGet (cacheSet σ k v t) k now = some v) ∧
    (now - t > CACHE_TTL → cacheGet (cacheSet σ k v t) k now = none) ∧
    (σ.data k = none → cacheGet σ k now = none) := by
  refine ⟨fun h => ?_, fun h => ?_, fun h => ?_⟩
  · simp [cacheGet, cacheSet, not_lt.mpr h]
  · simp [cacheGet, cacheSet, h]
  · unfold cacheGet
    rw [h]

/-- Witness for C4: after storing 9 at time 0, a read at 60 000 ms still
returns 9, a read at 60 001 ms is absent, and a read from an empty store
is absent. -/
theorem cache_roundtrip_ttl_witness :
    cacheGet (cacheSet (emptyCache ℕ) "price" 9 0) "price" 60000 = some 9 ∧
    cacheGet (cacheSet (emptyCache ℕ) "price" 9 0) "price" 60001 = none ∧
    cacheGet (emptyCache ℕ) "price" 12345 = none := by
  obtain ⟨h1, h2, h3⟩ :=
    cache_roundtrip_ttl (emptyCache ℕ) "price" 9 0 60000
  obtain ⟨_, h2', _⟩ :=
    cache_roundtrip_ttl (emptyCache ℕ) "price" 9 0 60001
  exact ⟨h1 (by norm_num [CACHE_TTL]), h2' (by norm_num [CACHE_TTL]),
    h3 rfl⟩

/-- C8: `fetchAPI` writes the cache exactly on its success path — a
successful network call stores the parsed payload under the cache key with
the current time as the fresh timestamp, while offline calls and failed
network calls leave the store untouched. -/
theorem fetchAPI_cache_write_on_success {α : Type} (env : FetchEnv α)
    (nm : String) (σ : CacheState α) :
    (∀ d, env.online = true → env.netResult = some d →
      (fetchAPI env nm σ).cache = cacheSet σ nm d env.now) ∧
    (env.online = false ∨ env.netResult = none →
      (fetchAPI env nm σ).cache = σ) := by
  obtain ⟨online, netResult, now⟩ := env
  constructor
  · rintro d ho hn
    subst ho
    simp only at hn
    subst hn
    rfl
  · rintro (ho | hn)
    · subst ho
      simp only [fetchAPI, Bool.not_false, if_pos]
      rcases cacheGet σ nm now with _ | c <;> rfl
    · simp only at hn
      subst hn
      cases online
      · simp only [fetchAPI, Bool.not_false, if_pos]
        rcases cacheGet σ nm now with _ | c <;> rfl
      · simp only [fetchAPI, Bool.not_true, Bool.false_eq_true, if_false]
        rcases cacheGet σ nm now with _ | c <;> rfl

/-- Witness for C8: a successful online fetch of payload 5 at time 100
stores it under the key, and an offline call leaves the empty store
empty. -/
theorem fetchAPI_cache_write_on_success_witness :
    (fetchAPI (α := ℕ) ⟨true, some 5, 100⟩ "k" (emptyCache ℕ)).cache
      = cacheSet (emptyCache ℕ) "k" 5 100 ∧
    (fetchAPI (α := ℕ) ⟨false, none, 100⟩ "k" (emptyCache ℕ)).cache
      = emptyCache ℕ := by
  exact ⟨(fetchAPI_cache_write_on_success ⟨true, some 5, 100⟩ "k"
      (emptyCache ℕ)).1 5 rfl rfl,
    (fetchAPI_cache_write_on_success ⟨false, none, 100⟩ "k"
      (emptyCache ℕ)).2 (Or.inl rfl)⟩

/-- Counterexample to C1 as stated: a value is stored under the key
`coins` at time 0, yet an offline `fetchAPI` at time 70 000 ms — past the
60 000 ms TTL — throws `Offline` instead of returning the stored value:
the fallback path goes through `cache.get`, which enforces the TTL, so
staleness is NOT ignored on fallback. -/
theorem fetchAPI_stale_fallback_counterexample :
    (cacheSet (emptyCache ℕ) "coins" 42 0).data "coins" = some 42 ∧
    (fetchAPI (α := ℕ) ⟨false, none, 70000⟩ "coins"
        (cacheSet (emptyCache ℕ) "coins" 42 0)).result
      = Except.error FetchError.offline := by
  constructor
  · rfl
  · rfl

/-- C1 as amended: on the no-network paths (offline, or online with a
failed call) `fetchAPI` returns the cached value exactly when `cache.get`
— which enforces the 60 000 ms TTL — yields one, and fails (with
`Offline` when offline, the propagated network error otherwise) when no
unexpired cache entry exists for the key, even if an older entry is still
stored. -/
theorem fetchAPI_fallback_within_ttl {α : Type} (env : FetchEnv α)
    (nm : String) (σ : CacheState α)
    (hfail : env.online = false ∨ env.netResult = none) :
    (∀ v, cacheGet σ nm env.now = some v →
      (fetchAPI env nm σ).result = Except.ok v) ∧
    (cacheGet σ nm env.now = none →
      (fetchAPI env nm σ).result = Except.error
        (if env.online then FetchError.netFailure else FetchError.offline)) := by
  obtain ⟨online, netResult, now⟩ := env
  cases online
  · constructor
    · intro v hv
      simp [fetchAPI, hv]
    · intro hv
      simp [fetchAPI, hv]
  · rcases hfail with ho | hn
    · exact absurd ho (by simp)
    · simp only at hn
      subst hn
      constructor
      · intro v hv
        simp [fetchAPI, hv]
      · intro hv
        simp [fetchAPI, hv]

/-- Witness for C1 as amended: offline at time 50 000 ms with a value
stored at time 0 — within TTL — the stored value 42 is returned; offline
at 70 000 ms with the same store, `cache.get` yields nothing and the call
fails with `Offline`. -/
theorem fetchAPI_fallback_within_ttl_witness :
    (fetchAPI (α := ℕ) ⟨false, none, 50000⟩ "coins"
        (cacheSet (emptyCache ℕ) "coins" 42 0)).result = Except.ok 42 ∧
    (fetchAPI (α := ℕ) ⟨false, none, 70000⟩ "coins"
        (cacheSet (emptyCache ℕ) "coins" 42 0)).result
      = Except.error FetchError.offline := by
  constructor
  · exact (fetchAPI_fallback_within_ttl ⟨false, none, 50000⟩ "coins"
      (cacheSet (emptyCache ℕ) "coins" 42 0) (Or.inl rfl)).1 42 (by decide)
  · have h := (fetchAPI_fallback_within_ttl ⟨false, none, 70000⟩ "coins"
      (cacheSet (emptyCache ℕ) "coins" 42 0) (Or.inl rfl)).2 (by decide)
    simpa using h

/-- Counterexample to C5 as stated: a fresh online fetch of payload 42
and an offline fallback serving a cached 42 deliver identical results to
the caller — the fallback value carries no degraded-mode flag, so the
caller cannot distinguish the two. -/
theorem fetchAPI_no_flag_counterexample :
    (fetchAPI (α := ℕ) ⟨true, some 42, 70000⟩ "coins"
        (emptyCache ℕ)).result
      = (fetchAPI (α := ℕ) ⟨false, none, 70000⟩ "coins"
          (cacheSet (emptyCache ℕ) "coins" 42 65000)).result ∧
    (fetchAPI (α := ℕ) ⟨true, some 42, 70000⟩ "coins"
        (emptyCache ℕ)).result = Except.ok 42 := by
  constructor
  · rfl
  · rfl

/-- C5 as amended: degraded-mode use is surfaced only as a toast side
effect — `Using offline data` on the offline path, `Using cached data` on
the network-failure path, and no toast on a fresh success — while the
value returned to the caller is the bare cached payload, carrying no
flag. -/
theorem fetchAPI_degraded_toast_only {α : Type} (env : FetchEnv α)
    (nm : String) (σ : CacheState α) (v : α) :
    (env.online = false → cacheGet σ nm env.now = some v →
      (fetchAPI env nm σ).result = Except.ok v ∧
      (fetchAPI env nm σ).toasts = ["Using offline data"]) ∧
    (∀ d, env.online = true → env.netResult = some d →
      (fetchAPI env nm σ).toasts = []) ∧
    (env.online = true → env.netResult = none →
      cacheGet σ nm env.now = some v →
      (fetchAPI env nm σ).result = Except.ok v ∧
      (fetchAPI env nm σ).toasts = ["Using cached data"]) := by
  obtain ⟨online, netResult, now⟩ := env
  refine ⟨?_, ?_, ?_⟩
  · rintro ho hv
    subst ho
    simp [fetchAPI, hv]
  · rintro d ho hn
    subst ho
    simp only at hn
    subst hn
    rfl
  · rintro ho hn hv
    subst ho
    simp only at hn
    subst hn
    simp [fetchAPI, hv]

/-- Witness for C5 as amended: offline with a fresh cached 42 returns 42
and toasts `Using offline data`; a failed online call with the same store
returns 42 and toasts `Using cached data`; a successful online call
toasts nothing. -/
theorem fetchAPI_degraded_toast_only_witness :
    ((fetchAPI (α := ℕ) ⟨false, none, 50000⟩ "coins"
        (cacheSet (emptyCache ℕ) "coins" 42 0)).result = Except.ok 42 ∧
      (fetchAPI (α := ℕ) ⟨false, none, 50000⟩ "coins"
        (cacheSet (emptyCache ℕ) "coins" 42 0)).toasts
        = ["Using offline data"]) ∧
    (fetchAPI (α := ℕ) ⟨true, some 7, 50000⟩ "coins"
        (emptyCache ℕ)).toasts = [] ∧
    ((fetchAPI (α := ℕ) ⟨true, none, 50000⟩ "coins"
        (cacheSet (emptyCache ℕ) "coins" 42 0)).result = Except.ok 42 ∧
      (fetchAPI (α := ℕ) ⟨true, none, 50000⟩ "coins"
        (cacheSet (emptyCache ℕ) "coins" 42 0)).toasts
        = ["Using cached data"]) := by
  refine ⟨?_, ?_, ?_⟩
  · exact (fetchAPI_degraded_toast_only ⟨false, none, 50000⟩ "coins"
      (cacheSet (emptyCache ℕ) "coins" 42 0) 42).1 rfl (by decide)
  · exact (fetchAPI_degraded_toast_only ⟨true, some 7, 50000⟩ "coins"
      (emptyCache ℕ) 7).2.1 7 rfl rfl
  · exact (fetchAPI_degraded_toast_only ⟨true, none, 50000⟩ "coins"
      (cacheSet (emptyCache ℕ) "coins" 42 0) 42).2.2 rfl rfl (by decide)

/-- C6: for a series of at least 20 points with non-constant prices the
Bollinger bands satisfy upper ≥ middle ≥ lower, the middle band being the
simple mean and the outer bands mean ± 2 times the population standard
deviation of the last 20 points; a shorter non-empty series yields all
three bands equal to the first price. -/
theorem bollinger_spec (prices : List ℝ) :
    (20 ≤ prices.length → (∃ a ∈ prices, ∃ b ∈ prices, a ≠ b) →
      (calculateBollinger prices 20).middle
          = (prices.drop (prices.length - 20)).sum / 20 ∧
      (calculateBollinger prices 20).upper
          = (calculateBollinger prices 20).middle
            + 2 * Real.sqrt (((prices.drop (prices.length - 20)).map fun p =>
                (p - (prices.drop (prices.length - 20)).sum / 20) ^ 2).sum
                  / 20) ∧
      (calculateBollinger prices 20).lower
          = (calculateBollinger prices 20).middle
            - 2 * Real.sqrt (((prices.drop (prices.length - 20)).map fun p =>
                (p - (prices.drop (prices.length - 20)).sum / 20) ^ 2).sum
                  / 20) ∧
      (calculateBollinger prices 20).lower
          ≤ (calculateBollinger prices 20).middle ∧
      (calculateBollinger prices 20).middle
          ≤ (calculateBollinger prices 20).upper) ∧
    ((hne : prices ≠ []) → prices.length < 20 →
      calculateBollinger prices 20
        = ⟨prices.head hne, prices.head hne, prices.head hne⟩) := by
  constructor
  · intro hlen _
    have hnl : ¬ prices.length < 20 := not_lt.mpr hlen
    have hb : calculateBollinger prices 20
        = ⟨(prices.drop (prices.length - 20)).sum / 20
            + 2 * Real.sqrt (((prices.drop (prices.length - 20)).map fun p =>
                (p - (prices.drop (prices.length - 20)).sum / 20) ^ 2).sum
                  / 20),
          (prices.drop (prices.length - 20)).sum / 20,
          (prices.drop (prices.length - 20)).sum / 20
            - 2 * Real.sqrt (((prices.drop (prices.length - 20)).map fun p =>
                (p - (prices.drop (prices.length - 20)).sum / 20) ^ 2).sum
                  / 20)⟩ := by
      unfold calculateBollinger
      rw [if_neg hnl]
      rfl
    rw [hb]
    have hs := Real.sqrt_nonneg
      (((prices.drop (prices.length - 20)).map fun p =>
        (p - (prices.drop (prices.length - 20)).sum / 20) ^ 2).sum / 20)
    exact ⟨rfl, rfl, rfl, by dsimp only; linarith, by dsimp only; linarith⟩
  · intro hne hlt
    unfold calculateBollinger
    rw [if_pos hlt]
    cases prices with
    | nil => exact absurd rfl hne
    | cons a t => rfl

/-- A 20-point non-constant sample series for the Bollinger witness. -/
def sampleSeries : List ℝ :=
  [1, 1, 1, 1, 1, 1, 1, 1, 1, 1, 1, 1, 1, 1, 1, 1, 1, 1, 1, 2]

/-- Witness for C6: on a concrete 20-point non-constant series the bands
are ordered, and on the single-point series `[5]` all three bands are
5. -/
theorem bollinger_spec_witness :
    (calculateBollinger sampleSeries 20).lower
        ≤ (calculateBollinger sampleSeries 20).middle ∧
    (calculateBollinger sampleSeries 20).middle
        ≤ (calculateBollinger sampleSeries 20).upper ∧
    calculateBollinger [(5 : ℝ)] 20 = ⟨5, 5, 5⟩ := by
  obtain ⟨-, -, -, h4, h5⟩ := (bollinger_spec sampleSeries).1
    (by norm_num [sampleSeries])
    ⟨1, by norm_num [sampleSeries], 2, by norm_num [sampleSeries],
      by norm_num⟩
  have h6 := (bollinger_spec [(5 : ℝ)]).2 (by simp) (by norm_num)
  exact ⟨h4, h5, by simpa using h6⟩

/-- C2: `calculateRSI` at period 14 agrees with the reference definition
written from the spec — 50 for series of at most 14 points, 100 when the
average loss over the last 14 transitions vanishes, and
`100 - 100/(1 + avgGain/avgLoss)` otherwise — and the result lies in
[0, 100] for every non-empty series. -/
theorem rsi_matches_spec (prices : List ℚ) :
    calculateRSI prices 14 = specRSI prices ∧
    (prices ≠ [] →
      0 ≤ calculateRSI prices 14 ∧ calculateRSI prices 14 ≤ 100) := by
  have hbounds :
      0 ≤ calculateRSI prices 14 ∧ calculateRSI prices 14 ≤ 100 := by
    unfold calculateRSI
    by_cases hlen : prices.length < 14 + 1
    · rw [if_pos hlen]; norm_num
    · rw [if_neg hlen]
      dsimp only
      set ds := lastN 14 (deltas prices) with hds
      set G := (ds.map fun c => if c > 0 then c else 0).sum with hG
      set L := (ds.map fun c => if c > 0 then 0 else -c).sum with hL
      have hG0 : 0 ≤ G := hG ▸ gains_nonneg ds
      have hL0 : 0 ≤ L := hL ▸ losses_nonneg ds
      by_cases hz : L / ((14 : ℕ) : ℚ) = 0
      · rw [if_pos hz]; norm_num
      · rw [if_neg hz]
        have hLpos : 0 < L / ((14 : ℕ) : ℚ) :=
          lt_of_le_of_ne (by positivity) (Ne.symm hz)
        have hrs : 0 ≤ G / ((14 : ℕ) : ℚ) / (L / ((14 : ℕ) : ℚ)) :=
          div_nonneg (by positivity) (le_of_lt hLpos)
        have h1 : (0 : ℚ) < 1 + G / ((14 : ℕ) : ℚ) / (L / ((14 : ℕ) : ℚ)) :=
          by linarith
        have hle :
            100 / (1 + G / ((14 : ℕ) : ℚ) / (L / ((14 : ℕ) : ℚ))) ≤ 100 := by
          rw [div_le_iff₀ h1]; nlinarith
        have hge :
            0 ≤ 100 / (1 + G / ((14 : ℕ) : ℚ) / (L / ((14 : ℕ) : ℚ))) := by
          positivity
        constructor <;> linarith
  refine ⟨?_, fun _ => hbounds⟩
  unfold calculateRSI specRSI
  by_cases hlen : prices.length < 14 + 1
  · rw [if_pos hlen, if_pos (by omega : prices.length < 15)]
  · rw [if_neg hlen, if_neg (by omega : ¬ prices.length < 15)]
    dsimp only
    rw [sum_if_pos_eq_sum_filter, sum_if_neg_eq_sum_filter]
    norm_num

/-- Witness for C2: on the spec's 15-point test series the code RSI and
the reference RSI agree, the value is within [0, 100], and it evaluates
to the hand-computed 3300/43 (gains 33, losses 10 over the last 14
transitions). -/
theorem rsi_matches_spec_witness :
    calculateRSI [100, 102, 101, 105, 110, 108, 112, 115, 113, 118,
        120, 117, 122, 125, 123] 14
      = specRSI [100, 102, 101, 105, 110, 108, 112, 115, 113, 118,
        120, 117, 122, 125, 123] ∧
    (0 ≤ calculateRSI [100, 102, 101, 105, 110, 108, 112, 115, 113, 118,
        120, 117, 122, 125, 123] 14 ∧
      calculateRSI [100, 102, 101, 105, 110, 108, 112, 115, 113, 118,
        120, 117, 122, 125, 123] 14 ≤ 100) ∧
    calculateRSI [100, 102, 101, 105, 110, 108, 112, 115, 113, 118,
        120, 117, 122, 125, 123] 14 = 3300 / 43 := by
  refine ⟨(rsi_matches_spec _).1, (rsi_matches_spec _).2 (by decide), ?_⟩
  norm_num [calculateRSI, lastN, deltas, List.zipWith]

end Script
